import Mathlib

/-!
Shallow embedding of `src/model/t5.py` (Custom-P5): the per-user embedding
module `UserEmbeds`, the tokenization step `T5FineTuned.tokenize`, the batch
collation `T5FineTuned.prepare_input`, the personalization injection
`T5FineTuned._inject_personalization`, and the evaluation step
`T5FineTuned.valid_step`.

Tensors are modelled as (nested) lists of rationals; the underlying
transformer, the tokenizer and the task templates are external collaborators
modelled as black-box function fields of structures.
-/

namespace P5

/-- Monadic map over `Option`, written as structural recursion so that
pointwise lemmas are provable by induction.  `mapMo f l` succeeds iff `f`
succeeds on every element, mirroring a Python loop that may raise. -/
def mapMo {α β : Type} (f : α → Option β) : List α → Option (List β)
  | [] => some []
  | a :: l =>
    match f a, mapMo f l with
    | some b, some bs => some (b :: bs)
    | _, _ => none

/-- The elementwise nonlinearity `nn.functional.leaky_relu` with the default
negative slope 0.01 (t5.py line 40). -/
def leakyRelu (x : ℚ) : ℚ := if 0 ≤ x then x else x / 100

/-- The dropout probability `p=0.6` passed to `nn.functional.dropout1d`
(t5.py line 37). -/
def dropoutP : ℚ := 3 / 5

/-- Lookup into an `nn.Embedding` weight table: valid for indices
`0 ≤ i < table.length`; a negative or too large index is a runtime
`IndexError`, modelled as `none`. -/
def embeddingLookup (table : List (List ℚ)) (i : Int) : Option (List ℚ) :=
  if 0 ≤ i then table[i.toNat]? else none

/-- Semantics of `x.permute(1, 0)` on a rectangular 2-dimensional tensor of
shape (n, m): the result has shape (m, n) with `result[j][b] = x[b][j]`
(t5.py lines 36 and 38). -/
def permute10 (x : List (List ℚ)) : List (List ℚ) :=
  (List.range (x.headD []).length).map fun j => x.map fun row => row.getD j 0

/-- Channel dropout on a 2-dimensional tensor of shape (C, L): channel `c`
(row `c0 + position`) is zeroed entirely when `mask` selects it, and kept
channels are rescaled by `1 / (1 - p)`, as `torch` does in training mode. -/
def dropChannels (p : ℚ) (mask : Nat → Bool) (c0 : Nat) : List (List ℚ) → List (List ℚ)
  | [] => []
  | row :: rest =>
    (if mask c0 then List.replicate row.length 0 else row.map fun v => v / (1 - p)) ::
      dropChannels p mask (c0 + 1) rest

/-- Semantics of `nn.functional.dropout1d(x, p, training)` on a 2-dimensional
input of shape (C, L): in training mode whole channels (rows) are dropped
according to the per-call random `mask`; in inference mode it is the
identity (t5.py line 37). -/
def dropout1d (training : Bool) (p : ℚ) (mask : Nat → Bool)
    (x : List (List ℚ)) : List (List ℚ) :=
  if training then dropChannels p mask 0 x else x

/-- The post-lookup pipeline of `UserEmbeds.__call__` (t5.py lines 36-40):
permute batch and feature axes, channel dropout (so entire feature
dimensions are dropped), permute back, then leaky ReLU elementwise. -/
def userEmbedsPost (training : Bool) (mask : Nat → Bool)
    (x : List (List ℚ)) : List (List ℚ) :=
  ((permute10 (dropout1d training dropoutP mask (permute10 x))).map
    fun row => row.map leakyRelu)

/-- `UserEmbeds.__call__` (t5.py lines 31-42): embedding lookup of every
index, then `userEmbedsPost`.  `none` models an `IndexError` from an
out-of-range index. -/
def userEmbedsForward (table : List (List ℚ)) (training : Bool)
    (mask : Nat → Bool) (idxs : List Int) : Option (List (List ℚ)) :=
  (mapMo (embeddingLookup table) idxs).map (userEmbedsPost training mask)

/-- One output of the fast tokenizer called as
`tokenizer(text=input_text, text_target=target_text, truncation=True)`:
input ids, attention mask, label (target) ids, and the per-token
`word_ids` / `special_tokens_mask` arrays of the underlying encoding
(t5.py lines 106-110).  `word_ids` holds `none` exactly where the
tokenizer reports no whole word (special tokens). -/
structure Encoding where
  inputIds : List Nat
  attentionMask : List Nat
  labels : List Nat
  wordIds : List (Option Nat)
  specialMask : List Bool

/-- The tokenizer collaborator (`T5TokenizerFast`): a black-box text encoder,
its pad token id, and batch decoding of generated token sequences with
special tokens skipped. -/
structure Tokenizer where
  encode : String → String → Encoding
  padTokenId : Nat
  batchDecode : List (List Nat) → List String

/-- The fields of one logical sample after the batch-of-one unwrap
`sample = \x7bk: v[0] for k, v in sample.items()\x7d` (t5.py line 94). -/
structure SampleFields where
  user_id : String
  target_item : String

/-- A task template collaborator: called with the sample fields, returns an
ordered list of (input_text, target_text) pairs (t5.py line 101). -/
abbrev Task : Type := SampleFields → List (String × String)

/-- A raw sample as handed to `tokenize`: a mapping whose values are
batch-of-one lists (t5.py lines 90-94). -/
structure RawSample where
  user_id : List String
  target_item : List String

/-- Semantics of `int(re.search(r"\d+", s).group())` (t5.py line 116): the
first maximal run of decimal digits in `s`, as a number; `none` models the
`AttributeError` when `s` has no digit. -/
def firstDigitRun : List Char → Option (List Char)
  | [] => none
  | c :: rest =>
    if c.isDigit then some (c :: rest.takeWhile Char.isDigit)
    else firstDigitRun rest

/-- Extract the user index from a user-id string, as `tokenize` does: the
first digit run read as a decimal number. -/
def extractUserIdx (s : String) : Option Nat :=
  (firstDigitRun s.toList).map fun ds =>
    ds.foldl (fun acc c => acc * 10 + (c.toNat - 48)) 0

/-- Construction of `whole_word_ids` (t5.py lines 109-114): positionwise over
the parallel `word_ids` / `special_tokens_mask` arrays, a special-token
position becomes the pad id sentinel and a non-special position becomes its
word index shifted up by one.  A non-special position whose word id is
missing is the `TypeError` of `None + 1`, modelled as `none`. -/
def wholeWordIds (wordIds : List (Option Nat)) (special : List Bool)
    (padId : Nat) : Option (List Nat) :=
  mapMo (fun p => if p.2 then some padId else p.1.map (fun w => w + 1))
    (wordIds.zip special)

/-- One entry of the list built by the template loop of `tokenize`
(t5.py lines 103-120): the tokenizer output plus `user_idx`,
`whole_word_ids` and `target_item`. -/
structure EncodedSequence where
  inputIds : List Nat
  attentionMask : List Nat
  labels : List Nat
  userIdx : Nat
  wholeWordIds : List Nat
  targetItem : String
deriving DecidableEq

/-- The ways `tokenize` can raise, in source order: the batch-size-one
assertion (line 92), indexing `v[0]` of an empty field (line 94),
`random.choice` on an empty training-task list (line 96), calling the unset
(`None`) evaluation task (line 96 + 101), `None + 1` on a missing word id
(line 113), and `re.search(...).group()` with no digits (line 116). -/
inductive TokenizeError
  | batchSizeNotOne
  | emptyField
  | noTask
  | noneTaskNotCallable
  | wordIdMissing
  | noUserIdxDigits
deriving DecidableEq

/-- Body of the template loop of `tokenize` for one (input_text, target_text)
pair (t5.py lines 104-120). -/
def encodeTemplate (tok : Tokenizer) (u tgt : String) (it tt : String) :
    Except TokenizeError EncodedSequence :=
  let e := tok.encode it tt
  match wholeWordIds e.wordIds e.specialMask tok.padTokenId with
  | none => .error .wordIdMissing
  | some wwi =>
    match extractUserIdx u with
    | none => .error .noUserIdxDigits
    | some uidx =>
      .ok { inputIds := e.inputIds, attentionMask := e.attentionMask,
            labels := e.labels, userIdx := uidx, wholeWordIds := wwi,
            targetItem := tgt }

/-- The template loop of `tokenize`, collecting `encoded_sequence_list`
(t5.py lines 103-120). -/
def encodeTemplates (tok : Tokenizer) (u tgt : String) :
    List (String × String) → Except TokenizeError (List EncodedSequence)
  | [] => .ok []
  | (it, tt) :: rest =>
    match encodeTemplate tok u tgt it tt with
    | .error e => .error e
    | .ok es =>
      match encodeTemplates tok u tgt rest with
      | .error e => .error e
      | .ok l => .ok (es :: l)

/-- `T5FineTuned.tokenize` (t5.py lines 90-122).  `training` is the module
training flag; `pick` models the randomness of `random.choice`; the merge
into per-field lists (`merge_with(list, ...)`, line 122) is `mergeEncoded`
below. -/
def tokenize (tok : Tokenizer) (trainingTasks : List Task)
    (evalTask : Option Task) (training : Bool) (pick : Nat)
    (sample : RawSample) : Except TokenizeError (List EncodedSequence) :=
  match sample.user_id with
  | [u] =>
    match sample.target_item.head? with
    | none => .error .emptyField
    | some tgt =>
      match (if training then trainingTasks[pick % trainingTasks.length]?
             else evalTask : Option Task) with
      | none => if training then .error .noTask else .error .noneTaskNotCallable
      | some task =>
        encodeTemplates tok u tgt (task { user_id := u, target_item := tgt })
  | _ => .error .batchSizeNotOne

/-- The per-field lists produced by `merge_with(list, *encoded_sequence_list)`
(t5.py line 122). -/
structure TokenizedOutput where
  inputIds : List (List Nat)
  attentionMask : List (List Nat)
  labels : List (List Nat)
  userIdx : List Nat
  wholeWordIds : List (List Nat)
  targetItem : List String

/-- Merge a list of encoded sequences into per-field parallel lists
(t5.py line 122). -/
def mergeEncoded (l : List EncodedSequence) : TokenizedOutput :=
  { inputIds := l.map (·.inputIds), attentionMask := l.map (·.attentionMask),
    labels := l.map (·.labels), userIdx := l.map (·.userIdx),
    wholeWordIds := l.map (·.wholeWordIds), targetItem := l.map (·.targetItem) }

/-- Semantics of `pad_sequence(seqs, batch_first=True, padding_value=pad)`
(t5.py lines 127-133, 141): every sequence is right-padded with `pad` to the
maximum length in the batch. -/
def padSequence (seqs : List (List Nat)) (pad : Nat) : List (List Nat) :=
  let maxLen := (seqs.map List.length).foldr max 0
  seqs.map fun s => s ++ List.replicate (maxLen - s.length) pad

/-- A batch before collation: per-field lists of per-sample values, as
handed to `prepare_input` (t5.py line 124). -/
structure RawBatch where
  userIdx : List Nat
  inputIds : List (List Nat)
  attentionMask : List (List Nat)
  wholeWordIds : List (List Nat)
  labels : Option (List (List Nat))
  targetItem : List String

/-- The `input_dict` built by `prepare_input` (t5.py lines 124-149): padded
tensors, labels with pad positions replaced by the ignore sentinel, and the
unpadded target-item strings kept only outside training mode.  Device moves
are identities in this model. -/
structure CollatedBatch where
  userIdx : List Nat
  inputIds : List (List Nat)
  attentionMask : List (List Nat)
  wholeWordIds : List (List Nat)
  labels : Option (List (List Int))
  targetItem : Option (List String)
deriving DecidableEq

/-- The label post-processing of `prepare_input` (t5.py lines 141-142): pad
with the pad id, then replace every position equal to the pad id by `-100`. -/
def buildLabels (ls : List (List Nat)) (padId : Nat) : List (List Int) :=
  (padSequence ls padId).map fun row =>
    row.map fun x => if x = padId then (-100 : Int) else (x : Int)

/-- `T5FineTuned.prepare_input` (t5.py lines 124-149). -/
def prepareInput (tok : Tokenizer) (training : Bool) (batch : RawBatch) :
    CollatedBatch :=
  { userIdx := batch.userIdx,
    inputIds := padSequence batch.inputIds tok.padTokenId,
    attentionMask := padSequence batch.attentionMask tok.padTokenId,
    wholeWordIds := padSequence batch.wholeWordIds tok.padTokenId,
    labels := batch.labels.map (fun ls => buildLabels ls tok.padTokenId),
    targetItem := if training then none else some batch.targetItem }

/-- The decoding configuration passed to `self.generate` (t5.py
lines 185-209). -/
structure GenConfig where
  numReturnSequences : Nat
  maxNewTokens : Nat
  numBeams : Nat
  noRepeatNgramSize : Nat
  earlyStopping : Bool
deriving DecidableEq

/-- The underlying pretrained model collaborator: the shared token-embedding
table `self.shared`, the forward pass returning a loss, and beam-search
generation returning token-id sequences. -/
structure LM where
  sharedEmbed : Nat → List ℚ
  forwardLoss : List (List (List ℚ)) → List (List Nat) → List (List Int) → ℚ
  generate : List (List (List ℚ)) → List (List Nat) → GenConfig → List (List Nat)

/-- The `T5FineTuned` state a step call reads: the configured evaluation
task, the `UserEmbeds` weight table, the global
`ExperimentConfig.inject_personalization` phase list, the module training
flag, and the per-call dropout randomness. -/
structure ModelState where
  evalTask : Option Task
  userEmbTable : List (List ℚ)
  injectPersonalization : List String
  training : Bool
  dropMask : Nat → Bool

/-- `T5FineTuned._inject_personalization` (t5.py lines 151-163): shift the
1-based user indices down by one, run `UserEmbeds`, unsqueeze the result
along the sequence axis and add it (broadcast) to the token embeddings.
`none` models a runtime error: an out-of-range embedding index or a
broadcast shape mismatch. -/
def injectPersonalizationFn (st : ModelState)
    (tokenEmbeds : List (List (List ℚ))) (userIdxs : List Nat) :
    Option (List (List (List ℚ))) :=
  match userEmbedsForward st.userEmbTable st.training st.dropMask
      (userIdxs.map fun u => (u : Int) - 1) with
  | none => none
  | some ue =>
    if tokenEmbeds.length = ue.length then
      mapMo (fun bu => mapMo (fun tv =>
          if tv.length = bu.2.length then some (tv.zipWith (· + ·) bu.2) else none)
        bu.1) (tokenEmbeds.zip ue)
    else none

/-- The fixed decoding configuration of `valid_step` (t5.py lines 185-189). -/
def validStepGenConfig : GenConfig :=
  { numReturnSequences := 10, maxNewTokens := 50, numBeams := 30,
    noRepeatNgramSize := 0, earlyStopping := true }

/-- The ways a step call can raise: the explicit `ValueError` for a missing
evaluation task, a `KeyError` from `batch.pop` or `batch[...]`, an
`IndexError`-like failure inside personalization injection, and a failing
`np.reshape`. -/
inductive StepError
  | valueError (msg : String)
  | keyError (key : String)
  | indexError
  | reshapeError
deriving DecidableEq

/-- Semantics of `np.reshape` of a flat list to shape (n, m): row-major
grouping, defined only when the length matches exactly. -/
def reshape2d {α : Type} (l : List α) (n m : Nat) : Option (List (List α)) :=
  if l.length = n * m then
    some ((List.range n).map fun i => (l.drop (i * m)).take m)
  else none

/-- The `ValueError` message raised by `valid_step` when no evaluation task
is configured (t5.py lines 182-183). -/
def validStepNoEvalTaskMsg : String :=
  "Model can\x27t perform valid_step since no eval_task is set! Pass it when initializing the model or with `set_eval_task()`"

/-- The token-embedding stage of `valid_step` (t5.py lines 193-195): embed
the padded input ids through `self.shared`, then inject personalization when
the phase flag contains "eval". -/
def validStepEmbeds (lm : LM) (st : ModelState) (batch : CollatedBatch) :
    Except StepError (List (List (List ℚ))) :=
  let inputsEmbeds := batch.inputIds.map fun row => row.map lm.sharedEmbed
  if "eval" ∈ st.injectPersonalization then
    match injectPersonalizationFn st inputsEmbeds batch.userIdx with
    | none => .error .indexError
    | some e => .ok e
  else .ok inputsEmbeds

/-- `T5FineTuned.valid_step` (t5.py lines 178-223).  The returned batch is
the caller batch after the in-place `batch.pop("target_item")`. -/
def validStep (lm : LM) (tok : Tokenizer) (st : ModelState)
    (batch : CollatedBatch) :
    Except StepError (CollatedBatch × List (List String) × List String × ℚ) :=
  match st.evalTask with
  | none => .error (.valueError validStepNoEvalTaskMsg)
  | some _ =>
    match batch.targetItem with
    | none => .error (.keyError "target_item")
    | some targetText =>
      let batch2 : CollatedBatch := { batch with targetItem := none }
      match validStepEmbeds lm st batch with
      | .error e => .error e
      | .ok inputsEmbeds =>
        match batch.labels with
        | none => .error (.keyError "labels")
        | some labels =>
          let valLoss := lm.forwardLoss inputsEmbeds batch.attentionMask labels
          let beamOutputs := lm.generate inputsEmbeds batch.attentionMask
            validStepGenConfig
          let generatedSents := tok.batchDecode beamOutputs
          match reshape2d generatedSents targetText.length
              validStepGenConfig.numReturnSequences with
          | none => .error .reshapeError
          | some preds => .ok (batch2, preds, targetText, valLoss)

/-! Helper lemmas about the embedding combinators. -/

theorem mapMo_length {α β : Type} {f : α → Option β} :
    ∀ {l : List α} {out : List β}, mapMo f l = some out → out.length = l.length := by
  intro l
  induction l with
  | nil => intro out h; simp [mapMo] at h; simp [← h]
  | cons a l ih =>
    intro out h
    simp only [mapMo] at h
    split at h
    · cases h
      simp only [List.length_cons]
      rename_i b bs hfa hml
      rw [ih hml]
    · cases h

theorem mapMo_getElem? {α β : Type} {f : α → Option β} :
    ∀ {l : List α} {out : List β}, mapMo f l = some out →
      ∀ k : Nat, out[k]? = (l[k]?).bind f := by
  intro l
  induction l with
  | nil => intro out h k; simp [mapMo] at h; subst h; simp
  | cons a l ih =>
    intro out h k
    simp only [mapMo] at h
    split at h
    · cases h
      rename_i b bs hfa hml
      cases k with
      | zero => simp [hfa]
      | succ k => simpa using ih hml k
    · cases h

theorem mapMo_isSome {α β : Type} {f : α → Option β} {l : List α}
    {out : List β} (h : mapMo f l = some out) {k : Nat} (hk : k < l.length) :
    ∃ b, out[k]? = some b := by
  have hlen : out.length = l.length := mapMo_length h
  exact ⟨out[k], by rw [List.getElem?_eq_getElem (by omega)]⟩

theorem encodeTemplates_mem {tok : Tokenizer} {u tgt : String} :
    ∀ {ts : List (String × String)} {out : List EncodedSequence}
      {es : EncodedSequence},
      encodeTemplates tok u tgt ts = .ok out → es ∈ out →
      ∃ p, p ∈ ts ∧ encodeTemplate tok u tgt p.1 p.2 = .ok es := by
  intro ts
  induction ts with
  | nil => intro out es h hm; cases h; simp at hm
  | cons p rest ih =>
    intro out es h hm
    rcases p with ⟨it, tt⟩
    cases hET : encodeTemplate tok u tgt it tt with
    | error e => simp only [encodeTemplates, hET] at h; cases h
    | ok e1 =>
      cases hETs : encodeTemplates tok u tgt rest with
      | error e2 => simp only [encodeTemplates, hET, hETs] at h; cases h
      | ok l1 =>
        simp only [encodeTemplates, hET, hETs] at h
        injection h with h
        subst h
        rcases List.mem_cons.mp hm with hm | hm
        · exact ⟨(it, tt), List.mem_cons_self _ _, by rw [hm]; exact hET⟩
        · obtain ⟨q, hq, hqe⟩ := ih hETs hm
          exact ⟨q, List.mem_cons_of_mem _ hq, hqe⟩

theorem headD_of_getElem? {α : Type} {x : List α} {r d : α}
    (h : x[0]? = some r) : x.headD d = r := by
  cases x with
  | nil => simp at h
  | cons a l => simp at h; simp [h]

theorem permute10_getElem? {x : List (List ℚ)} {dim : Nat}
    (hhead : (x.headD []).length = dim) {j : Nat} (hj : j < dim) :
    (permute10 x)[j]? = some (x.map fun row => row.getD j 0) := by
  unfold permute10
  rw [List.getElem?_map, hhead, List.getElem?_range hj]
  rfl

theorem dropChannels_getElem? (p : ℚ) (mask : Nat → Bool) :
    ∀ (l : List (List ℚ)) (c0 j : Nat),
      (dropChannels p mask c0 l)[j]? = (l[j]?).map fun row =>
        if mask (c0 + j) then List.replicate row.length 0
        else row.map fun v => v / (1 - p) := by
  intro l
  induction l with
  | nil => intro c0 j; simp [dropChannels]
  | cons row rest ih =>
    intro c0 j
    cases j with
    | zero => simp [dropChannels]
    | succ j =>
      simp only [dropChannels, List.getElem?_cons_succ]
      rw [ih (c0 + 1) j]
      have : c0 + (j + 1) = c0 + 1 + j := by omega
      rw [this]

theorem padSequence_getElem? (seqs : List (List Nat)) (pad : Nat) (i : Nat) :
    (padSequence seqs pad)[i]? = (seqs[i]?).map fun s =>
      s ++ List.replicate ((seqs.map List.length).foldr max 0 - s.length) pad := by
  simp [padSequence]

theorem wholeWordIds_length {wordIds : List (Option Nat)} {special : List Bool}
    {padId : Nat} {out : List Nat}
    (h : wholeWordIds wordIds special padId = some out) :
    out.length = min wordIds.length special.length := by
  have := mapMo_length h
  simpa using this

theorem wholeWordIds_getElem? {wordIds : List (Option Nat)}
    {special : List Bool} {padId : Nat} {out : List Nat}
    (h : wholeWordIds wordIds special padId = some out) (k : Nat) :
    out[k]? = ((wordIds.zip special)[k]?).bind fun p =>
      if p.2 then some padId else p.1.map fun w => w + 1 :=
  mapMo_getElem? h k

theorem reshape2d_some {α : Type} {l : List α} {n m : Nat}
    {out : List (List α)} (h : reshape2d l n m = some out) :
    l.length = n * m ∧ out.length = n ∧ (∀ row ∈ out, row.length = m) ∧
    ∀ i j : Nat, i < n → j < m →
      (out[i]?).bind (fun row => row[j]?) = l[i * m + j]? := by
  unfold reshape2d at h
  split at h
  case isFalse => cases h
  case isTrue hlen =>
    injection h with h
    subst h
    refine ⟨hlen, by simp, ?_, ?_⟩
    · intro row hrow
      simp only [List.mem_map, List.mem_range] at hrow
      obtain ⟨i, hi, rfl⟩ := hrow
      have h1 : i * m + m ≤ n * m := by
        have h2 : (i + 1) * m ≤ n * m := Nat.mul_le_mul_right m hi
        calc i * m + m = (i + 1) * m := by ring
          _ ≤ n * m := h2
      simp only [List.length_take, List.length_drop, hlen]
      omega
    · intro i j hi hj
      rw [List.getElem?_map, List.getElem?_range hi]
      simp [List.getElem?_take_of_lt hj, List.getElem?_drop]

theorem validStep_ok_inv {lm : LM} {tok : Tokenizer} {st : ModelState}
    {batch : CollatedBatch} {b2 : CollatedBatch} {preds : List (List String)}
    {ts : List String} {loss : ℚ}
    (h : validStep lm tok st batch = .ok (b2, preds, ts, loss)) :
    batch.targetItem = some ts ∧ b2 = { batch with targetItem := none } ∧
    ∃ embeds labels,
      validStepEmbeds lm st batch = .ok embeds ∧
      batch.labels = some labels ∧
      loss = lm.forwardLoss embeds batch.attentionMask labels ∧
      reshape2d
        (tok.batchDecode (lm.generate embeds batch.attentionMask validStepGenConfig))
        ts.length validStepGenConfig.numReturnSequences = some preds := by
  unfold validStep at h
  cases hev : st.evalTask with
  | none => simp [hev] at h
  | some tk =>
    cases htg : batch.targetItem with
    | none => simp [hev, htg] at h
    | some targetText =>
      cases hemb : validStepEmbeds lm st batch with
      | error e => simp [hev, htg, hemb] at h
      | ok embeds =>
        cases hlab : batch.labels with
        | none => simp [hev, htg, hemb, hlab] at h
        | some labels =>
          cases hrs : reshape2d
              (tok.batchDecode
                (lm.generate embeds batch.attentionMask validStepGenConfig))
              targetText.length validStepGenConfig.numReturnSequences with
          | none => simp [hev, htg, hemb, hlab, hrs] at h
          | some p =>
            simp only [hev, htg, hemb, hlab, hrs, Except.ok.injEq,
              Prod.mk.injEq] at h
            obtain ⟨hb2, hp, hts, hloss⟩ := h
            subst hb2; subst hp; subst hts; subst hloss
            exact ⟨rfl, rfl, embeds, labels, rfl, rfl, rfl, hrs⟩

theorem col_getD {x : List (List ℚ)} {b : Nat} {row : List ℚ}
    (hxb : x[b]? = some row) (j : Nat) :
    (x.map fun r => r.getD j 0).getD b 0 = row.getD j 0 := by
  rw [List.getD_eq_getElem?_getD, List.getElem?_map, hxb]
  rfl

theorem userEmbedsPost_getElem? (training : Bool) (mask : Nat → Bool)
    {x : List (List ℚ)} {dim : Nat} (hrect : ∀ r ∈ x, r.length = dim)
    {b d : Nat} (hb : b < x.length) (hd : d < dim) {v : ℚ}
    (hv : (x[b]?).bind (fun r => r[d]?) = some v) :
    ((userEmbedsPost training mask x)[b]?).bind (fun r => r[d]?) =
      some (leakyRelu
        (if training then (if mask d then 0 else v / (1 - dropoutP)) else v)) := by
  cases hxb : x[b]? with
  | none => rw [hxb] at hv; cases hv
  | some row =>
    rw [hxb] at hv
    simp only [Option.some_bind] at hv
    have hne : x ≠ [] := by intro hx; rw [hx] at hxb; cases hxb
    have hhead : (x.headD []).length = dim := by
      cases x with
      | nil => exact absurd rfl hne
      | cons r0 rest => simpa using hrect r0 (by simp)
    have h0 : (0 : Nat) < dim := Nat.lt_of_le_of_lt (Nat.zero_le d) hd
    have hxTd : (permute10 x)[d]? = some (x.map fun r => r.getD d 0) :=
      permute10_getElem? hhead hd
    have hxT0 : (permute10 x)[0]? = some (x.map fun r => r.getD 0 0) :=
      permute10_getElem? hhead h0
    have hvv : row.getD d 0 = v := by
      rw [List.getD_eq_getElem?_getD, hv]
      rfl
    cases training with
    | false =>
      have hh2 : ((permute10 x).headD []).length = x.length := by
        rw [headD_of_getElem? hxT0]; simp
      have houter : (permute10 (permute10 x))[b]? =
          some ((permute10 x).map fun r => r.getD b 0) :=
        permute10_getElem? hh2 hb
      simp only [userEmbedsPost, dropout1d, Bool.false_eq_true, if_false,
        List.getElem?_map, houter, Option.map_some', Option.some_bind,
        hxTd, col_getD hxb, hvv]
    | true =>
      have hxDd : (dropChannels dropoutP mask 0 (permute10 x))[d]? =
          some (if mask d then
              List.replicate (x.map fun r => r.getD d 0).length 0
            else (x.map fun r => r.getD d 0).map fun w => w / (1 - dropoutP)) := by
        rw [dropChannels_getElem?, hxTd]
        simp
      have hxD0 : (dropChannels dropoutP mask 0 (permute10 x))[0]? =
          some (if mask 0 then
              List.replicate (x.map fun r => r.getD 0 0).length 0
            else (x.map fun r => r.getD 0 0).map fun w => w / (1 - dropoutP)) := by
        rw [dropChannels_getElem?, hxT0]
        simp
      have hh2 : ((dropChannels dropoutP mask 0 (permute10 x)).headD []).length =
          x.length := by
        rw [headD_of_getElem? hxD0]
        split <;> simp
      have houter : (permute10 (dropChannels dropoutP mask 0 (permute10 x)))[b]? =
          some ((dropChannels dropoutP mask 0 (permute10 x)).map
            fun r => r.getD b 0) :=
        permute10_getElem? hh2 hb
      simp only [userEmbedsPost, dropout1d, if_true, List.getElem?_map, houter,
        Option.map_some', Option.some_bind, hxDd]
      cases hmask : mask d with
      | true =>
        simp only [if_true]
        have hrep : (List.replicate (x.map fun r => r.getD d 0).length (0 : ℚ)).getD b 0 = 0 := by
          rw [List.getD_eq_getElem?_getD, List.getElem?_replicate_of_lt (by simpa using hb)]
          rfl
        simp [hrep]
      | false =>
        simp only [Bool.false_eq_true, if_false]
        have hmapd : ((x.map fun r => r.getD d 0).map fun w => w / (1 - dropoutP)).getD b 0 =
            v / (1 - dropoutP) := by
          rw [List.getD_eq_getElem?_getD, List.getElem?_map, List.getElem?_map, hxb]
          simp [hv]
        rw [hmapd]

/-! Concrete exemplar collaborators, used to evaluate the definitions at
explicit inputs in the witness theorems. -/

def exTok : Tokenizer :=
  { encode := fun _ _ =>
      { inputIds := [5, 1], attentionMask := [1, 1], labels := [7, 1],
        wordIds := [some 0, none], specialMask := [false, true] },
    padTokenId := 0,
    batchDecode := fun seqs => seqs.map fun _ => "item_1" }

def exTask : Task := fun _ => [("write a review", "item_42")]

def exLM : LM :=
  { sharedEmbed := fun _ => [1], forwardLoss := fun _ _ _ => 0,
    generate := fun e _ cfg => List.replicate (e.length * cfg.numReturnSequences) [3] }

def exSt : ModelState :=
  { evalTask := some exTask, userEmbTable := [[1], [2]],
    injectPersonalization := [], training := false, dropMask := fun _ => false }

def exStC1 : ModelState :=
  { evalTask := none, userEmbTable := [[1]], injectPersonalization := [],
    training := false, dropMask := fun _ => false }

def exBatch : CollatedBatch :=
  { userIdx := [1], inputIds := [[5, 1]], attentionMask := [[1, 1]],
    wholeWordIds := [[1, 0]], labels := some [[7, 1]],
    targetItem := some ["item_42"] }

def exRawBatch : RawBatch :=
  { userIdx := [1, 2], inputIds := [[5, 1], [6, 7, 1]],
    attentionMask := [[1, 1], [1, 1, 1]], wholeWordIds := [[1, 0], [1, 2, 0]],
    labels := some [[7, 1], [8, 1]], targetItem := ["item_42", "item_7"] }

def exSample : RawSample := { user_id := ["u_3"], target_item := ["item_42"] }

def exStC8 : ModelState :=
  { evalTask := none, userEmbTable := [[1, 2]],
    injectPersonalization := ["train", "eval"], training := false,
    dropMask := fun _ => false }

/-! Claim theorems. -/

/-- C1 (counterexample): with an embedding table of a single row, so
`n_users = 1`, the user index 1 equals `n_users`, yet personalization
injection does NOT fail: the shift maps it to row 0 and the injection
succeeds.  This refutes the claim that a user index equal to `n_users` is
out of bounds and must fail. -/
theorem C1_counterexample :
    (injectPersonalizationFn exStC1 [[[0]]] [1]).isSome = true := by
  rfl

/-- C1 (amended): user indices are 1-based externally and are shifted down by
one before the embedding lookup: index 1 addresses table row 0, and for any
user index `u ≥ 1` the lookup succeeds exactly when `u ≤ n_users`
(equivalently, when the shifted index is `< n_users`).  In particular index
`n_users` itself is in bounds and the failing boundary is `n_users + 1`. -/
theorem C1_shifted_lookup (table : List (List ℚ)) (u : Nat) (hu : 1 ≤ u) :
    embeddingLookup table ((1 : Int) - 1) = table[0]?
    ∧ ((embeddingLookup table ((u : Int) - 1)).isSome ↔ u ≤ table.length) := by
  constructor
  · norm_num [embeddingLookup]
  · have h0 : (0 : Int) ≤ (u : Int) - 1 := by omega
    rw [embeddingLookup, if_pos h0]
    constructor
    · intro hsome
      obtain ⟨r, hr⟩ := Option.isSome_iff_exists.mp hsome
      obtain ⟨hlt, -⟩ := List.getElem?_eq_some.mp hr
      omega
    · intro hle
      have hlt : ((u : Int) - 1).toNat < table.length := by omega
      rw [List.getElem?_eq_getElem hlt]
      rfl

/-- C1 witness: at the concrete table of two rows, user index 1 addresses
row 0 and user index 2 (= `n_users`) is a successful lookup. -/
theorem C1_witness :
    embeddingLookup [[(1 : ℚ)], [2]] ((1 : Int) - 1) = [[(1 : ℚ)], [2]][0]?
    ∧ ((embeddingLookup [[(1 : ℚ)], [2]] (((2 : Nat) : Int) - 1)).isSome ↔
        (2 : Nat) ≤ [[(1 : ℚ)], [2]].length) :=
  C1_shifted_lookup [[1], [2]] 2 (by norm_num)

/-- C4: when labels are present, `prepare_input` pads them with the pad id
and then replaces every position equal to the pad id by the ignore-in-loss
sentinel `-100`; consequently the returned label tensor contains the pad id
at no position. -/
theorem C4_labels_ignore_sentinel (tok : Tokenizer) (training : Bool)
    (batch : RawBatch) (ls : List (List Nat)) (h : batch.labels = some ls) :
    (prepareInput tok training batch).labels =
      some (buildLabels ls tok.padTokenId)
    ∧ buildLabels ls tok.padTokenId = (padSequence ls tok.padTokenId).map
        (fun row => row.map fun z =>
          if z = tok.padTokenId then (-100 : Int) else (z : Int))
    ∧ ∀ row ∈ buildLabels ls tok.padTokenId, ∀ z ∈ row,
        z ≠ (tok.padTokenId : Int) := by
  refine ⟨by simp [prepareInput, h], rfl, ?_⟩
  intro row hrow z hz
  simp only [buildLabels, List.mem_map] at hrow
  obtain ⟨prow, hp, rfl⟩ := hrow
  simp only [List.mem_map] at hz
  obtain ⟨p, hpmem, rfl⟩ := hz
  by_cases hc : p = tok.padTokenId
  · rw [if_pos hc]
    omega
  · rw [if_neg hc]
    exact_mod_cast hc

/-- C4 witness: the concrete raw batch evaluated through `prepare_input`. -/
theorem C4_witness :
    (prepareInput exTok false exRawBatch).labels =
      some (buildLabels [[7, 1], [8, 1]] exTok.padTokenId)
    ∧ buildLabels [[7, 1], [8, 1]] exTok.padTokenId =
        (padSequence [[7, 1], [8, 1]] exTok.padTokenId).map
          (fun row => row.map fun z =>
            if z = exTok.padTokenId then (-100 : Int) else (z : Int))
    ∧ ∀ row ∈ buildLabels [[7, 1], [8, 1]] exTok.padTokenId, ∀ z ∈ row,
        z ≠ (exTok.padTokenId : Int) :=
  C4_labels_ignore_sentinel exTok false exRawBatch [[7, 1], [8, 1]] rfl

/-- C9: for every sample of the batch whose unpadded `input_ids` contain no
pad-id token, padding the batch as `prepare_input` does and then stripping
all pad-id positions recovers exactly the original unpadded sequence. -/
theorem C9_pad_strip_round_trip (tok : Tokenizer) (training : Bool)
    (batch : RawBatch) (i : Nat) (s : List Nat)
    (hs : batch.inputIds[i]? = some s) (hnp : tok.padTokenId ∉ s) :
    ((prepareInput tok training batch).inputIds[i]?).map
      (fun row => row.filter fun z => z != tok.padTokenId) = some s := by
  have h1 : (prepareInput tok training batch).inputIds =
      padSequence batch.inputIds tok.padTokenId := rfl
  rw [h1, padSequence_getElem?, hs]
  simp only [Option.map_some']
  congr 1
  rw [List.filter_append]
  have h2 : s.filter (fun z => z != tok.padTokenId) = s := by
    rw [List.filter_eq_self]
    intro a ha
    simp only [bne_iff_ne, ne_eq]
    intro he
    exact hnp (he ▸ ha)
  have h3 : (List.replicate
      ((batch.inputIds.map List.length).foldr max 0 - s.length)
      tok.padTokenId).filter (fun z => z != tok.padTokenId) = [] := by
    apply List.filter_replicate_of_neg
    simp
  rw [h2, h3, List.append_nil]

/-- C9 witness: the first sample of the concrete raw batch survives the
pad-then-strip round trip. -/
theorem C9_witness :
    ((prepareInput exTok false exRawBatch).inputIds[0]?).map
      (fun row => row.filter fun z => z != exTok.padTokenId) = some [5, 1] :=
  C9_pad_strip_round_trip exTok false exRawBatch 0 [5, 1] rfl (by decide)

/-- C2: with no evaluation task configured and the model not in training
mode, `tokenize` selects the unset (`None`) evaluation task and fails
immediately when calling it, and `valid_step` fails immediately with the
`ValueError` whose message names the required setup call `set_eval_task()`;
neither path retries or silently defaults. -/
theorem C2_missing_eval_task (tok : Tokenizer) (tasks : List Task) (pick : Nat)
    (sample : RawSample) (u t : String) (hu : sample.user_id = [u])
    (ht : sample.target_item.head? = some t) (lm : LM) (st : ModelState)
    (batch : CollatedBatch) (hst : st.evalTask = none) :
    tokenize tok tasks none false pick sample = .error .noneTaskNotCallable
    ∧ validStep lm tok st batch = .error (.valueError validStepNoEvalTaskMsg)
    ∧ ∃ pre post, validStepNoEvalTaskMsg = pre ++ "set_eval_task()" ++ post := by
  refine ⟨?_, ?_, ?_⟩
  · simp [tokenize, hu, ht]
  · simp [validStep, hst]
  · exact ⟨"Model can\x27t perform valid_step since no eval_task is set! Pass it when initializing the model or with `",
      "`", rfl⟩

/-- C2 witness: the concrete sample and a state with `eval_task` unset. -/
theorem C2_witness :
    tokenize exTok [] none false 0 exSample = .error .noneTaskNotCallable
    ∧ validStep exLM exTok exStC1 exBatch =
        .error (.valueError validStepNoEvalTaskMsg)
    ∧ ∃ pre post, validStepNoEvalTaskMsg = pre ++ "set_eval_task()" ++ post :=
  C2_missing_eval_task exTok [] 0 exSample "u_3" "item_42" rfl rfl exLM exStC1
    exBatch rfl

/-- C6: when the personalization phase flag excludes "eval", the entire
result of `valid_step` — prediction groups, target strings, loss and the
mutated batch — is identical for any two user-embedding tables, all other
inputs and state held equal. -/
theorem C6_eval_output_independent (lm : LM) (tok : Tokenizer)
    (st : ModelState) (batch : CollatedBatch) (w1 w2 : List (List ℚ))
    (h : "eval" ∉ st.injectPersonalization) :
    validStep lm tok { st with userEmbTable := w1 } batch =
    validStep lm tok { st with userEmbTable := w2 } batch := by
  have he : ∀ w, validStepEmbeds lm { st with userEmbTable := w } batch =
      .ok (batch.inputIds.map fun row => row.map lm.sharedEmbed) := by
    intro w
    simp [validStepEmbeds, h]
  unfold validStep
  simp only [he]

/-- C6 witness: concrete run with injection configured for training only. -/
theorem C6_witness :
    validStep exLM exTok
      { evalTask := some exTask, userEmbTable := [[1]],
        injectPersonalization := ["train"], training := false,
        dropMask := fun _ => false } exBatch =
    validStep exLM exTok
      { evalTask := some exTask, userEmbTable := [[2]],
        injectPersonalization := ["train"], training := false,
        dropMask := fun _ => false } exBatch :=
  C6_eval_output_independent exLM exTok
    { evalTask := some exTask, userEmbTable := [[1]],
      injectPersonalization := ["train"], training := false,
      dropMask := fun _ => false } exBatch [[1]] [[2]] (by decide)

theorem tokenize_ok_inv {tok : Tokenizer} {tasks : List Task}
    {evalTask : Option Task} {training : Bool} {pick : Nat}
    {sample : RawSample} {out : List EncodedSequence}
    (h : tokenize tok tasks evalTask training pick sample = .ok out) :
    ∃ (u tgt : String) (task : Task), encodeTemplates tok u tgt
      (task { user_id := u, target_item := tgt }) = .ok out := by
  cases hui : sample.user_id with
  | nil => simp [tokenize, hui] at h
  | cons u rest =>
    cases rest with
    | cons a b => simp [tokenize, hui] at h
    | nil =>
      cases hhd : sample.target_item.head? with
      | none => simp [tokenize, hui, hhd] at h
      | some tgt =>
        cases htk : (if training then tasks[pick % tasks.length]?
            else evalTask : Option Task) with
        | none =>
          simp only [tokenize, hui, hhd, htk] at h
          split at h <;> cases h
        | some task =>
          simp only [tokenize, hui, hhd, htk] at h
          exact ⟨u, tgt, task, h⟩

theorem encodeTemplate_ok_inv {tok : Tokenizer} {u tgt it tt : String}
    {es : EncodedSequence} (h : encodeTemplate tok u tgt it tt = .ok es) :
    ∃ wwi uidx,
      wholeWordIds (tok.encode it tt).wordIds (tok.encode it tt).specialMask
        tok.padTokenId = some wwi
      ∧ extractUserIdx u = some uidx
      ∧ es = { inputIds := (tok.encode it tt).inputIds,
               attentionMask := (tok.encode it tt).attentionMask,
               labels := (tok.encode it tt).labels, userIdx := uidx,
               wholeWordIds := wwi, targetItem := tgt } := by
  cases hww : wholeWordIds (tok.encode it tt).wordIds
      (tok.encode it tt).specialMask tok.padTokenId with
  | none => simp only [encodeTemplate, hww] at h; cases h
  | some wwi =>
    cases hux : extractUserIdx u with
    | none => simp only [encodeTemplate, hww, hux] at h; cases h
    | some uidx =>
      simp only [encodeTemplate, hww, hux, Except.ok.injEq] at h
      exact ⟨wwi, uidx, rfl, rfl, h.symm⟩

/-- C3: for every `EncodedSequence` produced by `tokenize`, the whole-word-id
sequence has exactly the length of the input-token-id sequence; every
position the tokenizer marks as special carries the pad id sentinel, and
every other position carries the tokenizer word index shifted up by one,
hence a value of at least 1. -/
theorem C3_whole_word_alignment (tok : Tokenizer) (tasks : List Task)
    (evalTask : Option Task) (training : Bool) (pick : Nat)
    (sample : RawSample) (out : List EncodedSequence)
    (h : tokenize tok tasks evalTask training pick sample = .ok out)
    (hlen : ∀ it tt,
      ((tok.encode it tt).wordIds).length = ((tok.encode it tt).inputIds).length
      ∧ ((tok.encode it tt).specialMask).length =
          ((tok.encode it tt).inputIds).length)
    (es : EncodedSequence) (hes : es ∈ out) :
    es.wholeWordIds.length = es.inputIds.length
    ∧ ∃ it tt, es.inputIds = (tok.encode it tt).inputIds
      ∧ ∀ (k : Nat) (sk : Bool),
          ((tok.encode it tt).specialMask)[k]? = some sk →
          ((sk = true → es.wholeWordIds[k]? = some tok.padTokenId)
          ∧ (sk = false → ∃ w,
              ((tok.encode it tt).wordIds)[k]? = some (some w)
              ∧ es.wholeWordIds[k]? = some (w + 1) ∧ 1 ≤ w + 1)) := by
  obtain ⟨u, tgt, task, hET⟩ := tokenize_ok_inv h
  obtain ⟨⟨it, tt⟩, hmem, hE⟩ := encodeTemplates_mem hET hes
  obtain ⟨wwi, uidx, hww, hux, rfl⟩ := encodeTemplate_ok_inv hE
  obtain ⟨hl1, hl2⟩ := hlen it tt
  have hwwlen : wwi.length = ((tok.encode it tt).inputIds).length := by
    rw [wholeWordIds_length hww, hl1, hl2, Nat.min_self]
  refine ⟨hwwlen, it, tt, rfl, ?_⟩
  intro k sk hsk
  have hklt : k < ((tok.encode it tt).specialMask).length :=
    (List.getElem?_eq_some.mp hsk).1
  have hkw : k < ((tok.encode it tt).wordIds).length := by omega
  have hw : ((tok.encode it tt).wordIds)[k]? =
      some ((tok.encode it tt).wordIds)[k] := List.getElem?_eq_getElem hkw
  have hzip : (((tok.encode it tt).wordIds).zip
      ((tok.encode it tt).specialMask))[k]? =
      some (((tok.encode it tt).wordIds)[k], sk) :=
    List.getElem?_zip_eq_some.mpr ⟨hw, hsk⟩
  have hk := wholeWordIds_getElem? hww k
  rw [hzip] at hk
  simp only [Option.some_bind] at hk
  constructor
  · intro hsk1
    rw [hk, hsk1, if_pos rfl]
  · intro hsk0
    subst hsk0
    simp only [if_false, Bool.false_eq_true] at hk
    have hkww : k < wwi.length := by omega
    cases hwk : ((tok.encode it tt).wordIds)[k] with
    | none =>
      rw [hwk] at hk
      simp only [Option.map_none'] at hk
      rw [List.getElem?_eq_getElem hkww] at hk
      cases hk
    | some w =>
      rw [hwk] at hk
      refine ⟨w, by rw [hw, hwk], by rw [hk]; rfl, Nat.succ_le_succ (Nat.zero_le w)⟩

/-- The encoded sequence `tokenize` produces from the concrete sample and
tokenizer: user 3 extracted from "u_3", word index 0 shifted to 1, and the
special (closing) token carrying the pad sentinel 0. -/
def exEncoded : EncodedSequence :=
  { inputIds := [5, 1], attentionMask := [1, 1], labels := [7, 1],
    userIdx := 3, wholeWordIds := [1, 0], targetItem := "item_42" }

/-- C3 witness: the concrete tokenize run evaluated end to end. -/
theorem C3_witness :
    exEncoded.wholeWordIds.length = exEncoded.inputIds.length
    ∧ ∃ it tt, exEncoded.inputIds = (exTok.encode it tt).inputIds
      ∧ ∀ (k : Nat) (sk : Bool),
          ((exTok.encode it tt).specialMask)[k]? = some sk →
          ((sk = true → exEncoded.wholeWordIds[k]? = some exTok.padTokenId)
          ∧ (sk = false → ∃ w,
              ((exTok.encode it tt).wordIds)[k]? = some (some w)
              ∧ exEncoded.wholeWordIds[k]? = some (w + 1) ∧ 1 ≤ w + 1)) :=
  C3_whole_word_alignment exTok [] (some exTask) false 0 exSample [exEncoded]
    (by rfl) (fun it tt => ⟨rfl, rfl⟩) exEncoded (by simp)

/-- C5: on a successful evaluation step, the decoding configuration is the
fixed one — 10 returned sequences per input, 30 beams, at most 50 new
tokens, no n-gram repetition constraint, early stopping — and the returned
prediction groups have shape (N, 10) for the N target items, grouping the
flat decoded list into 10 consecutive candidates per sample with generation
order preserved. -/
theorem C5_decoding_shape (lm : LM) (tok : Tokenizer) (st : ModelState)
    (batch : CollatedBatch) (b2 : CollatedBatch) (preds : List (List String))
    (ts : List String) (loss : ℚ)
    (h : validStep lm tok st batch = .ok (b2, preds, ts, loss)) :
    validStepGenConfig.numReturnSequences = 10
    ∧ validStepGenConfig.maxNewTokens = 50
    ∧ validStepGenConfig.numBeams = 30
    ∧ validStepGenConfig.noRepeatNgramSize = 0
    ∧ validStepGenConfig.earlyStopping = true
    ∧ batch.targetItem = some ts
    ∧ preds.length = ts.length
    ∧ (∀ row ∈ preds, row.length = 10)
    ∧ ∃ embeds, validStepEmbeds lm st batch = .ok embeds
      ∧ (tok.batchDecode
          (lm.generate embeds batch.attentionMask validStepGenConfig)).length =
            ts.length * 10
      ∧ ∀ i j : Nat, i < ts.length → j < 10 →
          (preds[i]?).bind (fun row => row[j]?) =
            (tok.batchDecode
              (lm.generate embeds batch.attentionMask
                validStepGenConfig))[i * 10 + j]? := by
  obtain ⟨htg, hb2, embeds, labels, hemb, hlab, hloss, hrs⟩ := validStep_ok_inv h
  obtain ⟨hflat, hplen, hrows, helem⟩ := reshape2d_some hrs
  exact ⟨rfl, rfl, rfl, rfl, rfl, htg, by rw [hplen], hrows, embeds, hemb,
    hflat, helem⟩

/-- C5 witness: the concrete evaluation run, whose single sample receives
exactly ten decoded candidates. -/
theorem C5_witness :
    validStepGenConfig.numReturnSequences = 10
    ∧ validStepGenConfig.maxNewTokens = 50
    ∧ validStepGenConfig.numBeams = 30
    ∧ validStepGenConfig.noRepeatNgramSize = 0
    ∧ validStepGenConfig.earlyStopping = true
    ∧ exBatch.targetItem = some ["item_42"]
    ∧ ([List.replicate 10 "item_1"] : List (List String)).length =
        (["item_42"] : List String).length
    ∧ (∀ row ∈ ([List.replicate 10 "item_1"] : List (List String)),
        row.length = 10)
    ∧ ∃ embeds, validStepEmbeds exLM exSt exBatch = .ok embeds
      ∧ (exTok.batchDecode
          (exLM.generate embeds exBatch.attentionMask validStepGenConfig)).length =
            (["item_42"] : List String).length * 10
      ∧ ∀ i j : Nat, i < (["item_42"] : List String).length → j < 10 →
          (([List.replicate 10 "item_1"] : List (List String))[i]?).bind
              (fun row => row[j]?) =
            (exTok.batchDecode
              (exLM.generate embeds exBatch.attentionMask
                validStepGenConfig))[i * 10 + j]? :=
  C5_decoding_shape exLM exTok exSt exBatch { exBatch with targetItem := none }
    [List.replicate 10 "item_1"] ["item_42"] 0 (by rfl)

/-- C7: `UserEmbeds` applies structured dropout in training mode — an entire
feature dimension `d` selected by the per-call mask is zeroed for every
sample `b` identically, and kept dimensions are rescaled by `1/(1-p)` with
`p = 0.6` — while in inference mode dropout is a pass-through; in both modes
the leaky-ReLU nonlinearity is applied elementwise after dropout. -/
theorem C7_structured_dropout (table : List (List ℚ)) (training : Bool)
    (mask : Nat → Bool) (idxs : List Int) (x : List (List ℚ)) (dim : Nat)
    (hx : mapMo (embeddingLookup table) idxs = some x)
    (hrect : ∀ r ∈ x, r.length = dim)
    (b d : Nat) (hb : b < x.length) (hd : d < dim) (v : ℚ)
    (hv : (x[b]?).bind (fun r => r[d]?) = some v) :
    dropoutP = 3 / 5
    ∧ ∃ out, userEmbedsForward table training mask idxs = some out
      ∧ (out[b]?).bind (fun r => r[d]?) =
          some (leakyRelu
            (if training then (if mask d then 0 else v / (1 - dropoutP))
             else v)) := by
  refine ⟨rfl, userEmbedsPost training mask x, ?_, ?_⟩
  · rw [userEmbedsForward, hx]
    rfl
  · exact userEmbedsPost_getElem? training mask hrect hb hd hv

/-- C7 witness: a two-dimensional table row in training mode with dimension
0 dropped; position (0, 1) is a kept dimension. -/
theorem C7_witness :
    dropoutP = 3 / 5
    ∧ ∃ out,
        userEmbedsForward [[(1 : ℚ), 2]] true (fun d => d == 0) [0] = some out
      ∧ (out[0]?).bind (fun r => r[1]?) =
          some (leakyRelu
            (if (true : Bool) then
              (if ((1 : Nat) == 0 : Bool) then 0 else 2 / (1 - dropoutP))
             else 2)) :=
  C7_structured_dropout [[1, 2]] true (fun d => d == 0) [0] [[1, 2]] 2 rfl
    (by intro r hr; simp only [List.mem_singleton] at hr; subst hr; rfl)
    0 1 (by decide) (by decide) 2 rfl

/-- C8: personalization injection looks up one embedding per user via
`UserEmbeds` on the shifted indices and adds that same user vector to the
token embedding at every sequence position of that sample: for every batch
index `b` and sequence position `s`, the output row is the elementwise sum
of the token-embedding row and the user vector. -/
theorem C8_injection_broadcast (st : ModelState)
    (te : List (List (List ℚ))) (idxs : List Nat)
    (out : List (List (List ℚ))) (ue : List (List ℚ))
    (hue : userEmbedsForward st.userEmbTable st.training st.dropMask
      (idxs.map fun u => (u : Int) - 1) = some ue)
    (h : injectPersonalizationFn st te idxs = some out)
    (b s : Nat) (m : List (List ℚ)) (tv uvec : List ℚ)
    (hteb : te[b]? = some m) (htv : m[s]? = some tv)
    (huv : ue[b]? = some uvec) :
    (out[b]?).bind (fun r => r[s]?) = some (tv.zipWith (· + ·) uvec)
    ∧ tv.length = uvec.length := by
  simp only [injectPersonalizationFn, hue] at h
  split at h
  case isFalse => cases h
  case isTrue hlen =>
    have hzipb : (te.zip ue)[b]? = some (m, uvec) :=
      List.getElem?_zip_eq_some.mpr ⟨hteb, huv⟩
    have hob := mapMo_getElem? h b
    rw [hzipb] at hob
    simp only [Option.some_bind] at hob
    have hblt : b < (te.zip ue).length := (List.getElem?_eq_some.mp hzipb).1
    have houtlen : out.length = (te.zip ue).length := mapMo_length h
    have hobs : ∃ M, out[b]? = some M :=
      ⟨out[b], List.getElem?_eq_getElem (by omega)⟩
    obtain ⟨M, hM⟩ := hobs
    rw [hM] at hob
    have hMg := hob.symm
    have hMs := mapMo_getElem? hMg s
    rw [htv] at hMs
    simp only [Option.some_bind] at hMs
    have hslt : s < m.length := (List.getElem?_eq_some.mp htv).1
    have hMlen : M.length = m.length := mapMo_length hMg
    have hMss : ∃ z, M[s]? = some z :=
      ⟨M[s], List.getElem?_eq_getElem (by omega)⟩
    obtain ⟨z, hz⟩ := hMss
    rw [hz] at hMs
    split at hMs
    case isTrue hlv =>
      injection hMs with hMs
      subst hMs
      rw [hM]
      simp only [Option.some_bind]
      exact ⟨hz, hlv⟩
    case isFalse => cases hMs

/-- C8 witness: a single user, a zero token-embedding sequence of length
one, and the concrete user vector (1, 2) added at every position. -/
theorem C8_witness :
    ((([[[(0 : ℚ) + 1, 0 + 2]]] : List (List (List ℚ)))[0]?).bind
        (fun r => r[0]?) =
      some (([0, 0] : List ℚ).zipWith (· + ·) [1, 2]))
    ∧ ([(0 : ℚ), 0] : List ℚ).length = ([(1 : ℚ), 2] : List ℚ).length :=
  C8_injection_broadcast exStC8 [[[0, 0]]] [1] [[[(0 : ℚ) + 1, 0 + 2]]]
    [[1, 2]] rfl rfl 0 0 [[0, 0]] [0, 0] [1, 2] rfl rfl rfl

/-- C10: a successful evaluation step removes the target-item entry from the
caller batch (the field is absent afterwards), returns exactly the removed
strings as the second result component, and leaves every other batch field
unmodified. -/
theorem C10_pop_target_frame (lm : LM) (tok : Tokenizer) (st : ModelState)
    (batch : CollatedBatch) (b2 : CollatedBatch) (preds : List (List String))
    (ts : List String) (loss : ℚ)
    (h : validStep lm tok st batch = .ok (b2, preds, ts, loss)) :
    batch.targetItem = some ts
    ∧ b2 = { batch with targetItem := none }
    ∧ b2.targetItem = none
    ∧ b2.inputIds = batch.inputIds ∧ b2.attentionMask = batch.attentionMask
    ∧ b2.wholeWordIds = batch.wholeWordIds ∧ b2.userIdx = batch.userIdx
    ∧ b2.labels = batch.labels := by
  obtain ⟨htg, hb2, -⟩ := validStep_ok_inv h
  subst hb2
  exact ⟨htg, rfl, rfl, rfl, rfl, rfl, rfl, rfl⟩

/-- C10 witness: the concrete evaluation run pops and returns the target
strings while keeping all other fields intact. -/
theorem C10_witness :
    exBatch.targetItem = some ["item_42"]
    ∧ ({ exBatch with targetItem := none } : CollatedBatch) =
        { exBatch with targetItem := none }
    ∧ ({ exBatch with targetItem := none } : CollatedBatch).targetItem = none
    ∧ ({ exBatch with targetItem := none } : CollatedBatch).inputIds =
        exBatch.inputIds
    ∧ ({ exBatch with targetItem := none } : CollatedBatch).attentionMask =
        exBatch.attentionMask
    ∧ ({ exBatch with targetItem := none } : CollatedBatch).wholeWordIds =
        exBatch.wholeWordIds
    ∧ ({ exBatch with targetItem := none } : CollatedBatch).userIdx =
        exBatch.userIdx
    ∧ ({ exBatch with targetItem := none } : CollatedBatch).labels =
        exBatch.labels :=
  C10_pop_target_frame exLM exTok exSt exBatch
    { exBatch with targetItem := none } [List.replicate 10 "item_1"]
    ["item_42"] 0 (by rfl)

end P5
